import Mathlib

/-!
Verification of the token-usage accounting surface of the `mcp-agent` example
repository: the `collect_model_usage` traversal and the `get_workflow_token_usage`
query tool of `examples/mcp_agent_server/asyncio/basic_agent_server.py`, and the
`TokenProgressDisplay` lifecycle of `src/mcp_agent/logging/token_progress_display.py`.

Conventions of the embedding:
* Python `int` token counts are `Nat` (they are non-negative token counters).
* Python `float` costs are `ℚ`; `round(x, 4)` and the `:.4f` format specifier are
  modelled as round-half-to-even at four decimal places on rationals.
* Optional Python values are `Option`; Python truthiness of an optional string
  (`if node.usage.model_name:`) is `none`/`some ""` falsy, otherwise truthy.
* The Python dict `model_usage` (insertion ordered) is an association list.
* The recursive closure `collect_model_usage`, which mutates the captured dict,
  is embedded as explicit accumulator passing in the same traversal order.
-/

set_option maxHeartbeats 1000000

namespace McpAgent

/-- Provider information attached to a usage record
(`node.usage.model_info.provider` in the source). -/
structure ModelInfo where
  provider : Option String
  deriving Repr, DecidableEq

/-- The usage record stored at a `TokenNode`
(`TokenUsage` of `mcp_agent.tracing.token_counter`, as consumed by the source). -/
structure TokenUsage where
  input_tokens : Nat
  output_tokens : Nat
  total_tokens : Nat
  model_name : Option String
  model_info : Option ModelInfo
  deriving Repr, DecidableEq

/-- A usage-node tree (`TokenNode`): a name, free-form metadata, the usage recorded
directly at this node, and the ordered children. -/
inductive TokenNode where
  | node (name : String) (metadata : List (String × String)) (usage : TokenUsage)
      (children : List TokenNode)
  deriving Repr

def TokenNode.name : TokenNode → String
  | .node nm _ _ _ => nm

def TokenNode.metadata : TokenNode → List (String × String)
  | .node _ md _ _ => md

def TokenNode.usage : TokenNode → TokenUsage
  | .node _ _ u _ => u

def TokenNode.children : TokenNode → List TokenNode
  | .node _ _ _ cs => cs

/-- Python truthiness of an optional string: `None` and `""` are falsy. -/
def truthyOptStr : Option String → Bool
  | none => false
  | some s => s != ""

/-- The model key under which `collect_model_usage` accumulates a usage record:
`(model_name, provider)` when `node.usage.model_name` is truthy, otherwise none
(the record is skipped). `provider` is `node.usage.model_info.provider` when
`model_info` is present, else `None` — exactly the source's conditional. -/
def usageModelKey (u : TokenUsage) : Option (String × Option String) :=
  match u.model_name with
  | none => none
  | some nm =>
    if nm != "" then
      some (nm, match u.model_info with
        | some mi => mi.provider
        | none => none)
    else none

/-- One entry of the `model_usage` dict built by `collect_model_usage`. -/
structure ModelEntry where
  model_name : String
  provider : Option String
  input_tokens : Nat
  output_tokens : Nat
  total_tokens : Nat
  deriving Repr, DecidableEq

/-- The `model_usage` dict: an insertion-ordered association list keyed by
`(model_name, provider)`. -/
abbrev ModelUsageMap := List ((String × Option String) × ModelEntry)

/-- Dict lookup (`model_key in model_usage` / `model_usage[model_key]`). -/
def mapFind (m : ModelUsageMap) (k : String × Option String) : Option ModelEntry :=
  match m with
  | [] => none
  | (k', e) :: rest => if k' = k then some e else mapFind rest k

/-- The zero-valued entry installed on first sight of a model key
(the dict literal at the `if model_key not in model_usage` branch). -/
def zeroEntry (k : String × Option String) : ModelEntry :=
  { model_name := k.1, provider := k.2,
    input_tokens := 0, output_tokens := 0, total_tokens := 0 }

/-- `if model_key not in model_usage: model_usage[model_key] = {...zeros...}`. -/
def mapInsertIfAbsent (m : ModelUsageMap) (k : String × Option String) : ModelUsageMap :=
  match mapFind m k with
  | some _ => m
  | none => m ++ [(k, zeroEntry k)]

/-- Adding one usage record into an existing entry (the three `+=` statements). -/
def addTo (e : ModelEntry) (u : TokenUsage) : ModelEntry :=
  { e with input_tokens := e.input_tokens + u.input_tokens,
           output_tokens := e.output_tokens + u.output_tokens,
           total_tokens := e.total_tokens + u.total_tokens }

/-- The three `model_usage[model_key][...] += node.usage....` statements:
the entry stored under `k` (and only it) absorbs the usage record. -/
def mapAdd : ModelUsageMap → (String × Option String) → TokenUsage → ModelUsageMap
  | [], _, _ => []
  | (k', e) :: rest, k, u =>
    if k' = k then (k', addTo e u) :: mapAdd rest k u
    else (k', e) :: mapAdd rest k u

/-- The body of `collect_model_usage` run at one node, before recursing
into the children. -/
def collectStep (u : TokenUsage) (acc : ModelUsageMap) : ModelUsageMap :=
  match usageModelKey u with
  | none => acc
  | some k => mapAdd (mapInsertIfAbsent acc k) k u

mutual
/-- `collect_model_usage(node)`: process this node's usage, then recurse into the
children in order, threading the accumulated dict. -/
def collectNode (acc : ModelUsageMap) : TokenNode → ModelUsageMap
  | .node _ _ u cs => collectList (collectStep u acc) cs

/-- `for child in node.children: collect_model_usage(child)`. -/
def collectList (acc : ModelUsageMap) : List TokenNode → ModelUsageMap
  | [] => acc
  | c :: cs => collectList (collectNode acc c) cs
end

/-- The dict produced by `collect_model_usage(workflow_node)` starting from the
empty `model_usage = {}`. -/
def collect_model_usage (n : TokenNode) : ModelUsageMap := collectNode [] n

mutual
/-- All usage records of the subtree, in traversal (preorder) order. -/
def allUsagesNode : TokenNode → List TokenUsage
  | .node _ _ u cs => u :: allUsagesList cs

def allUsagesList : List TokenNode → List TokenUsage
  | [] => []
  | c :: cs => allUsagesNode c ++ allUsagesList cs
end

/-- Whether a usage record is accumulated under key `k`. -/
def keyMatches (k : String × Option String) (u : TokenUsage) : Bool :=
  decide (usageModelKey u = some k)

/-- The usage records of exactly those nodes in the subtree that carry model key
`k` (that model name and provider). -/
def matchingUsages (k : String × Option String) (n : TokenNode) : List TokenUsage :=
  (allUsagesNode n).filter (keyMatches k)

def inputSum (us : List TokenUsage) : Nat := (us.map TokenUsage.input_tokens).sum

def outputSum (us : List TokenUsage) : Nat := (us.map TokenUsage.output_tokens).sum

def totalSum (us : List TokenUsage) : Nat := (us.map TokenUsage.total_tokens).sum

/-- The value `mapFind` returns for key `k` after a batch `us` of matching usage
records has been accumulated on top of a map whose entry for `k` was `b`. -/
def accEntry (b : Option ModelEntry) (k : String × Option String)
    (us : List TokenUsage) : Option ModelEntry :=
  if us.isEmpty then b
  else
    some { model_name := (b.getD (zeroEntry k)).model_name,
           provider := (b.getD (zeroEntry k)).provider,
           input_tokens := (b.getD (zeroEntry k)).input_tokens + inputSum us,
           output_tokens := (b.getD (zeroEntry k)).output_tokens + outputSum us,
           total_tokens := (b.getD (zeroEntry k)).total_tokens + totalSum us }

/-! ### The `get_workflow_token_usage` query tool

The tool lives in `basic_agent_server.py`. The token counter it consults
(`mcp_agent.tracing.token_counter.TokenCounter`) is not part of the visible
source, so its query entry points are abstracted as a structure of functions,
and `aggregate_usage` / `to_dict` are modelled from the spec. -/

/-- Python string interpolation of an optional value (`f"...{run_id}..."`):
`None` renders as `"None"`. -/
def pyOptStr : Option String → String
  | none => "None"
  | some s => s

/-- `metadata.get(key)`: first binding of the key, absent otherwise. -/
def metaGet (m : List (String × String)) (k : String) : Option String :=
  (m.find? (fun p => p.1 == k)).map (fun p => p.2)

/-- `display_key = f"{model_name} ({provider})" if provider else model_name`
(Python truthiness on the optional provider). -/
def displayKey (model_name : String) (provider : Option String) : String :=
  if truthyOptStr provider then model_name ++ " (" ++ provider.getD "" ++ ")"
  else model_name

/-- Floor of a rational as an integer (`q.num` and `q.den` are coprime and
`q.den > 0`, so floor division of numerator by denominator is the floor). -/
def ratFloorZ (q : ℚ) : ℤ := Int.fdiv q.num (q.den : ℤ)

/-- Round-half-to-even of a rational to the nearest integer. Python's `round`
and the `:.4f` format both use banker's rounding; Python floats are idealized
as rationals in this embedding. -/
def roundHalfEven (q : ℚ) : ℤ :=
  if q - (ratFloorZ q : ℚ) < 1/2 then ratFloorZ q
  else if (1 : ℚ)/2 < q - (ratFloorZ q : ℚ) then ratFloorZ q + 1
  else if ratFloorZ q % 2 = 0 then ratFloorZ q else ratFloorZ q + 1

/-- `round(cost, 4)`: round to four decimal places. -/
def round4 (q : ℚ) : ℚ := (roundHalfEven (q * 10000) : ℚ) / 10000

/-- The token-counter query surface used by the tool (`context.token_counter`).
Its implementation is outside the visible source; each field abstracts one
method as a pure function of the arguments the source passes. -/
structure ToolCounter where
  get_workflow_node : Option String → Option String → Option String → Option TokenNode
  calculate_node_cost : TokenNode → ℚ
  calculate_cost : String → Nat → Nat → Option String → ℚ

/-- The all-zero usage record. -/
def zeroUsage : TokenUsage :=
  { input_tokens := 0, output_tokens := 0, total_tokens := 0,
    model_name := none, model_info := none }

/-- Field-wise sum of two usage records (the aggregate carries no model name). -/
def addUsage (a b : TokenUsage) : TokenUsage :=
  { input_tokens := a.input_tokens + b.input_tokens,
    output_tokens := a.output_tokens + b.output_tokens,
    total_tokens := a.total_tokens + b.total_tokens,
    model_name := none, model_info := none }

mutual
/-- Modelled from the spec: `TokenNode.aggregate_usage` is defined in
`mcp_agent.tracing.token_counter`, which is not under the visible source; the
spec states it "recursively sums `own_usage` and `aggregate_usage(child)` for
every child", a pure function of the tree state at call time. -/
def aggregate_usage : TokenNode → TokenUsage
  | .node _ _ u cs => addUsage u (aggregateList cs)

/-- Sum of `aggregate_usage` over a list of children. -/
def aggregateList : List TokenNode → TokenUsage
  | [] => zeroUsage
  | c :: cs => addUsage (aggregate_usage c) (aggregateList cs)
end

/-- The `usage` sub-dict of the tool result. -/
structure UsageOut where
  input_tokens : Nat
  output_tokens : Nat
  total_tokens : Nat
  deriving Repr, DecidableEq

/-- The serialized usage tree (`workflow_node.to_dict()`). -/
inductive UsageTreeDict where
  | node (name : String) (metadata : List (String × String)) (usage : UsageOut)
      (children : List UsageTreeDict)
  deriving Repr

mutual
/-- Modelled from the spec: `TokenNode.to_dict` is defined in
`mcp_agent.tracing.token_counter`, which is not under the visible source; the
spec describes the serialized tree as the nested structure
`{name, kind, metadata, usage:{input_units,output_units,total_units}, children:[...]}`. -/
def to_dict : TokenNode → UsageTreeDict
  | .node nm md u cs =>
    .node nm md
      { input_tokens := u.input_tokens, output_tokens := u.output_tokens,
        total_tokens := u.total_tokens }
      (to_dictList cs)

/-- Serialization of a list of children. -/
def to_dictList : List TokenNode → List UsageTreeDict
  | [] => []
  | c :: cs => to_dict c :: to_dictList cs
end

/-- The `workflow` sub-dict of the tool result. -/
structure WorkflowInfo where
  name : String
  run_id : Option String
  workflow_id : Option String
  deriving Repr, DecidableEq

/-- One formatted entry of the `model_breakdown` dict (`{**usage, "cost": ...}`). -/
structure BreakdownEntry where
  model_name : String
  provider : Option String
  input_tokens : Nat
  output_tokens : Nat
  total_tokens : Nat
  cost : ℚ
  deriving Repr, DecidableEq

/-- The structured dictionary returned by the tool. The error variants populate
only `error`/`message`; the success variant populates the other fields. -/
structure ToolResult where
  error : Option String
  message : Option String
  workflow : Option WorkflowInfo
  usage : Option UsageOut
  cost : Option ℚ
  model_breakdown : List (String × BreakdownEntry)
  usage_tree : Option UsageTreeDict

/-- The empty result skeleton shared by the two error returns. -/
def errorResult (e msg : String) : ToolResult :=
  { error := some e, message := some msg, workflow := none, usage := none,
    cost := none, model_breakdown := [], usage_tree := none }

/-- `get_workflow_token_usage(workflow_id, run_id, workflow_name)`: the custom
tool of `basic_agent_server.py`. A total function — every branch returns a
structured `ToolResult`; no exception escapes. -/
def get_workflow_token_usage (token_counter : Option ToolCounter)
    (workflow_id run_id workflow_name : Option String) : ToolResult :=
  match token_counter with
  | none =>
    errorResult "Token counter not available"
      "Token tracking is not enabled for this application"
  | some tc =>
    match tc.get_workflow_node workflow_name workflow_id run_id with
    | none =>
      errorResult "Workflow not found"
        ("Could not find workflow with run_id=\x27" ++ pyOptStr run_id ++ "\x27")
    | some workflow_node =>
      { error := none, message := none,
        workflow := some
          { name := workflow_node.name,
            run_id := metaGet workflow_node.metadata "run_id",
            workflow_id := metaGet workflow_node.metadata "workflow_id" },
        usage := some
          { input_tokens := (aggregate_usage workflow_node).input_tokens,
            output_tokens := (aggregate_usage workflow_node).output_tokens,
            total_tokens := (aggregate_usage workflow_node).total_tokens },
        cost := some (round4 (tc.calculate_node_cost workflow_node)),
        model_breakdown := (collect_model_usage workflow_node).map (fun p =>
          (displayKey p.1.1 p.1.2,
           { model_name := p.2.model_name, provider := p.2.provider,
             input_tokens := p.2.input_tokens, output_tokens := p.2.output_tokens,
             total_tokens := p.2.total_tokens,
             cost := round4 (tc.calculate_cost p.1.1 p.2.input_tokens
               p.2.output_tokens p.1.2) })),
        usage_tree := some (to_dict workflow_node) }

/-! ### Sample inputs used by witnesses -/

/-- A sample invocation-leaf usage record (scenario 1 of the spec). -/
def usageClaude : TokenUsage :=
  { input_tokens := 100, output_tokens := 50, total_tokens := 150,
    model_name := some "claude-3", model_info := some { provider := some "anthropic" } }

/-- A second invocation-leaf usage record with a different model identifier. -/
def usageGpt : TokenUsage :=
  { input_tokens := 20, output_tokens := 10, total_tokens := 30,
    model_name := some "gpt-4o", model_info := some { provider := some "openai" } }

/-- A small workflow tree: run node over an agent node over two invocation leaves
that use different model identifiers. -/
def sampleTree : TokenNode :=
  .node "BasicAgentWorkflow" [("run_id", "run-123"), ("workflow_id", "wf-1")] zeroUsage
    [.node "finder" [] zeroUsage
      [.node "llm_anthropic" [] usageClaude [],
       .node "llm_openai" [] usageGpt []]]

/-- A counter whose node lookup never matches. -/
def tcNone : ToolCounter :=
  { get_workflow_node := fun _ _ _ => none,
    calculate_node_cost := fun _ => 0,
    calculate_cost := fun _ _ _ _ => 0 }

/-- A counter that resolves every lookup to `sampleTree`, with the pricing of
scenario 1 of the spec (3 and 15 currency units per 1,000,000 tokens). -/
def tcSample : ToolCounter :=
  { get_workflow_node := fun _ _ _ => some sampleTree,
    calculate_node_cost := fun n =>
      ((aggregate_usage n).input_tokens : ℚ) * 3 / 1000000
        + ((aggregate_usage n).output_tokens : ℚ) * 15 / 1000000,
    calculate_cost := fun _ i o _ => (i : ℚ) * 3 / 1000000 + (o : ℚ) * 15 / 1000000 }

/-! ### The `TokenProgressDisplay` lifecycle

`token_progress_display.py` is embedded as explicit state passing. The Rich
`Progress` widget is a list of task rows plus a started flag; the token counter
seen by the display (its watch registry, root presence and `get_summary`) is
modelled from the spec since `mcp_agent.tracing.token_counter` is not under the
visible source. Every display method returns the counter state, the display
state and the list of watch-registry calls (`watch`/`unwatch`) it performed. -/

/-- `get_summary()` result: aggregate usage at the root plus total cost. -/
structure Summary where
  usage : UsageOut
  cost : ℚ
  deriving Repr, DecidableEq

/-- The display-facing token counter: whether a truthy `_root` exists, the watch
registry (next fresh subscription id and the active ids), and the current
summary snapshot. -/
structure CounterState where
  hasRoot : Bool
  nextId : Nat
  active : List Nat
  summary : Summary
  deriving Repr, DecidableEq

/-- Modelled from the spec: `TokenCounter.watch` (not under the visible source)
"registers immediately" and returns a fresh subscription id. -/
def CounterState.watch (c : CounterState) : Nat × CounterState :=
  (c.nextId, { c with nextId := c.nextId + 1, active := c.active ++ [c.nextId] })

/-- Modelled from the spec: `TokenCounter.unwatch` (not under the visible source)
removes the subscription; unwatch of an unknown id is a no-op, not an error
(idempotent cancellation). -/
def CounterState.unwatch (c : CounterState) (i : Nat) : CounterState :=
  { c with active := c.active.erase i }

/-- Modelled from the spec: `TokenCounter.get_summary` (not under the visible
source) returns the aggregate usage record and total cost at the root; embedded
as reading the counter's current snapshot. -/
def CounterState.get_summary (c : CounterState) : Summary := c.summary

/-- One call the display makes into the watch registry. -/
inductive EngineEvent where
  | watchEv (id : Nat) (onRoot : Bool) (threshold : Nat) (throttle_ms : Nat)
  | unwatchEv (id : Nat)
  deriving Repr, DecidableEq

/-- One task row of the Rich `Progress` widget. -/
structure TaskRow where
  node_info : String
  tokens : String
  cost : String
  visible : Bool
  deriving Repr, DecidableEq

/-- `task.visible = b`. -/
def setVisible (b : Bool) (t : TaskRow) : TaskRow := { t with visible := b }

/-- The Rich `Progress` widget: whether it is started and its task rows
(task ids are list indices). -/
structure ProgressState where
  started : Bool
  tasks : List TaskRow
  deriving Repr, DecidableEq

/-- `progress.add_task(...)`: appends a visible row, returns its task id. -/
def ProgressState.add_task (p : ProgressState) (ni tk ct : String) :
    Nat × ProgressState :=
  let row : TaskRow := { node_info := ni, tokens := tk, cost := ct, visible := true }
  (p.tasks.length, { p with tasks := p.tasks ++ [row] })

/-- `progress.update(task_id, ...)`: rewrites the fields of one task row. -/
def ProgressState.update (p : ProgressState) (tid : Nat) (ni tk ct : String) :
    ProgressState :=
  match p.tasks[tid]? with
  | none => p
  | some t =>
    let row : TaskRow := { t with node_info := ni, tokens := tk, cost := ct }
    { p with tasks := p.tasks.set tid row }

/-- The mutable state of a `TokenProgressDisplay` instance. -/
structure DisplayState where
  _watch_ids : List Nat
  _paused : Bool
  _progress : ProgressState
  _total_task_id : Option Nat
  deriving Repr, DecidableEq

/-- `__init__`: no watches, not paused, progress not started, no total task. -/
def initDisplay : DisplayState :=
  { _watch_ids := [], _paused := false,
    _progress := { started := false, tasks := [] }, _total_task_id := none }

/-- A progress update issued by the watch callback
(`self._progress.update(self._total_task_id, ...)`). -/
structure UpdateCall where
  task_id : Option Nat
  node_info : String
  tokens : String
  cost : String
  deriving Repr, DecidableEq

/-- Applying an issued update to the widget state. -/
def applyUpdate (d : DisplayState) (u : UpdateCall) : DisplayState :=
  match u.task_id with
  | none => d
  | some tid =>
    { d with _progress := d._progress.update tid u.node_info u.tokens u.cost }

/-- Decimal digits of `m` with comma inserted before every further group of
three, processing the reversed digit list (`n` counts digits already emitted). -/
def commaRev : Nat → List Char → List Char
  | _, [] => []
  | n, d :: ds =>
    if n % 3 == 0 && n != 0 then ',' :: d :: commaRev (n + 1) ds
    else d :: commaRev (n + 1) ds

/-- Exactly four decimal digits of `m < 10000` (the fraction part of `:.4f`). -/
def digits4 (m : Nat) : String :=
  String.mk [Nat.digitChar (m / 1000 % 10), Nat.digitChar (m / 100 % 10),
    Nat.digitChar (m / 10 % 10), Nat.digitChar (m % 10)]

namespace TokenProgressDisplay

/-- `_format_tokens`: thousands separator (`f"{tokens:,}"`). -/
def _format_tokens (tokens : Nat) : String :=
  String.mk ((commaRev 0 (Nat.toDigits 10 tokens).reverse).reverse)

/-- `_format_cost`: `f"${cost:.4f}"` — dollar sign plus the cost rounded
half-to-even to four decimal places. -/
def _format_cost (cost : ℚ) : String :=
  if roundHalfEven (cost * 10000) < 0 then
    "$-" ++ toString ((-roundHalfEven (cost * 10000)) / 10000) ++ "."
      ++ digits4 ((-roundHalfEven (cost * 10000)) % 10000).toNat
  else
    "$" ++ toString (roundHalfEven (cost * 10000) / 10000) ++ "."
      ++ digits4 ((roundHalfEven (cost * 10000)) % 10000).toNat

/-- `start`: start the widget, add the TOTAL row showing the initial zero
totals, and register a watch on the root node (threshold 1, throttle 100ms)
when the counter has a truthy `_root`. -/
def start (c : CounterState) (d : DisplayState) :
    CounterState × DisplayState × List EngineEvent :=
  let p0 : ProgressState := { d._progress with started := true }
  let tp := p0.add_task "[bold]TOTAL" "0" "$0.0000"
  let d1 : DisplayState := { d with _progress := tp.2, _total_task_id := some tp.1 }
  if c.hasRoot then
    let wc := c.watch
    (wc.2, { d1 with _watch_ids := d1._watch_ids ++ [wc.1] },
     [EngineEvent.watchEv wc.1 true 1 100])
  else (c, d1, [])

/-- `stop`: unwatch every recorded subscription id, clear the id list, stop the
widget. -/
def stop (c : CounterState) (d : DisplayState) :
    CounterState × DisplayState × List EngineEvent :=
  let c1 := d._watch_ids.foldl (fun cc i => cc.unwatch i) c
  let d1 : DisplayState :=
    { d with _watch_ids := [],
             _progress := { d._progress with started := false } }
  (c1, d1, d._watch_ids.map EngineEvent.unwatchEv)

/-- `pause`: when not yet paused, hide every task row and stop the widget;
never touches the watch registry. -/
def pause (c : CounterState) (d : DisplayState) :
    CounterState × DisplayState × List EngineEvent :=
  if !d._paused then
    let p1 : ProgressState :=
      { started := false, tasks := d._progress.tasks.map (setVisible false) }
    let d1 : DisplayState := { d with _paused := true, _progress := p1 }
    (c, d1, [])
  else (c, d, [])

/-- `resume`: when paused, show every task row and restart the widget;
never touches the watch registry. -/
def resume (c : CounterState) (d : DisplayState) :
    CounterState × DisplayState × List EngineEvent :=
  if d._paused then
    let p1 : ProgressState :=
      { started := true, tasks := d._progress.tasks.map (setVisible true) }
    let d1 : DisplayState := { d with _paused := false, _progress := p1 }
    (c, d1, [])
  else (c, d, [])

/-- The `paused()` context manager: `pause`, run the body (which may return
normally or raise), then `resume` in the `finally` block — on every exit path. -/
def pausedScope {ε α : Type} (c : CounterState) (d : DisplayState)
    (body : CounterState → CounterState × Except ε α) :
    CounterState × DisplayState × Except ε α × List EngineEvent :=
  let s := pause c d
  let b := body s.1
  let r := resume b.1 s.2.1
  (r.1, r.2.1, b.2, s.2.2 ++ r.2.2)

/-- Using the display as a context manager: `__enter__` calls `start`, the body
runs (returning normally or raising), `__exit__` calls `stop` on either path. -/
def withDisplay {ε α : Type} (c : CounterState) (d : DisplayState)
    (body : CounterState → CounterState × Except ε α) :
    CounterState × DisplayState × Except ε α × List EngineEvent :=
  let s := start c d
  let b := body s.1
  let t := stop b.1 s.2.1
  (t.1, t.2.1, b.2, s.2.2 ++ t.2.2)

/-- `_on_token_update(node, usage)`: reads `get_summary()` and updates only the
TOTAL row from it; the `node` and `usage` arguments are not consulted. Returns
the new widget state and the update call it issued. -/
def _on_token_update (c : CounterState) (node : TokenNode) (usage : TokenUsage)
    (d : DisplayState) : DisplayState × UpdateCall :=
  let call : UpdateCall :=
    { task_id := d._total_task_id, node_info := "[bold]TOTAL",
      tokens := _format_tokens (c.get_summary).usage.total_tokens,
      cost := _format_cost (c.get_summary).cost }
  (applyUpdate d call, call)

end TokenProgressDisplay

/-- The summary of `sampleTree` under the pricing of scenario 1. -/
def sampleSummary : Summary :=
  { usage := { input_tokens := 120, output_tokens := 60, total_tokens := 180 },
    cost := 21/20000 }

/-- A counter with a truthy root. -/
def counterWithRoot : CounterState :=
  { hasRoot := true, nextId := 7, active := [], summary := sampleSummary }

/-- A counter without a root node. -/
def counterNoRoot : CounterState :=
  { hasRoot := false, nextId := 0, active := [], summary := sampleSummary }

/-- A second counter sharing `counterWithRoot`'s summary but nothing else. -/
def counterOther : CounterState :=
  { hasRoot := false, nextId := 9, active := [3, 4], summary := sampleSummary }

/-- A running display with one visible TOTAL row and one recorded watch id. -/
def sampleDisplay : DisplayState :=
  { _watch_ids := [5], _paused := false,
    _progress := { started := true,
                   tasks := [{ node_info := "[bold]TOTAL", tokens := "180",
                               cost := "$0.0010", visible := true }] },
    _total_task_id := some 0 }

/-- The display state `start` produces from a fresh display when the counter has
no root: widget started, TOTAL row showing the zero totals, no watch recorded. -/
def startedNoWatchDisplay : DisplayState :=
  { _watch_ids := [], _paused := false,
    _progress := { started := true,
                   tasks := [{ node_info := "[bold]TOTAL", tokens := "0",
                               cost := "$0.0000", visible := true }] },
    _total_task_id := some 0 }

/-- A body that returns normally. -/
def bodyOk : CounterState → CounterState × Except String Unit :=
  fun c => (c, Except.ok ())

/-- A body that raises. -/
def bodyErr : CounterState → CounterState × Except String Unit :=
  fun c => (c, Except.error "boom")

theorem mapFind_append (m₁ m₂ : ModelUsageMap) (k : String × Option String) :
    mapFind (m₁ ++ m₂) k =
      match mapFind m₁ k with
      | some e => some e
      | none => mapFind m₂ k := by
  induction m₁ with
  | nil => simp [mapFind]
  | cons p rest ih =>
    by_cases h : p.1 = k <;> simp [mapFind, h, ih]

theorem mapFind_insertIfAbsent_self (m : ModelUsageMap) (k : String × Option String) :
    mapFind (mapInsertIfAbsent m k) k = some ((mapFind m k).getD (zeroEntry k)) := by
  unfold mapInsertIfAbsent
  cases h : mapFind m k with
  | some e => simp [h]
  | none => simp [mapFind_append, h, mapFind]

theorem mapFind_mapAdd_self (m : ModelUsageMap) (k : String × Option String) (u : TokenUsage) :
    mapFind (mapAdd m k u) k = (mapFind m k).map (fun e => addTo e u) := by
  induction m with
  | nil => rfl
  | cons p rest ih =>
    obtain ⟨pk, pe⟩ := p
    by_cases h : pk = k
    · rw [mapAdd, if_pos h, mapFind, if_pos h, mapFind, if_pos h]
      rfl
    · rw [mapAdd, if_neg h, mapFind, if_neg h, mapFind, if_neg h, ih]

theorem mapFind_mapAdd_other (m : ModelUsageMap) (k₀ k : String × Option String)
    (u : TokenUsage) (hk : k₀ ≠ k) :
    mapFind (mapAdd m k₀ u) k = mapFind m k := by
  induction m with
  | nil => rfl
  | cons p rest ih =>
    obtain ⟨pk, pe⟩ := p
    by_cases h : pk = k₀
    · have hpk : pk ≠ k := by rw [h]; exact hk
      rw [mapAdd, if_pos h, mapFind, if_neg hpk, mapFind, if_neg hpk, ih]
    · rw [mapAdd, if_neg h, mapFind, mapFind, ih]

@[simp] theorem inputSum_nil : inputSum [] = 0 := rfl

@[simp] theorem outputSum_nil : outputSum [] = 0 := rfl

@[simp] theorem totalSum_nil : totalSum [] = 0 := rfl

@[simp] theorem inputSum_cons (u : TokenUsage) (us : List TokenUsage) :
    inputSum (u :: us) = u.input_tokens + inputSum us := by
  simp [inputSum]

@[simp] theorem outputSum_cons (u : TokenUsage) (us : List TokenUsage) :
    outputSum (u :: us) = u.output_tokens + outputSum us := by
  simp [outputSum]

@[simp] theorem totalSum_cons (u : TokenUsage) (us : List TokenUsage) :
    totalSum (u :: us) = u.total_tokens + totalSum us := by
  simp [totalSum]

theorem inputSum_append (a b : List TokenUsage) :
    inputSum (a ++ b) = inputSum a + inputSum b := by
  simp [inputSum]

theorem outputSum_append (a b : List TokenUsage) :
    outputSum (a ++ b) = outputSum a + outputSum b := by
  simp [outputSum]

theorem totalSum_append (a b : List TokenUsage) :
    totalSum (a ++ b) = totalSum a + totalSum b := by
  simp [totalSum]

theorem accEntry_append (b : Option ModelEntry) (k : String × Option String)
    (us₁ us₂ : List TokenUsage) :
    accEntry (accEntry b k us₁) k us₂ = accEntry b k (us₁ ++ us₂) := by
  cases us₁ with
  | nil => simp [accEntry]
  | cons x xs =>
    cases us₂ with
    | nil => simp [accEntry]
    | cons y ys =>
      simp [accEntry, ModelEntry.mk.injEq, inputSum_append, outputSum_append,
        totalSum_append]
      omega

theorem collectStep_find (u : TokenUsage) (acc : ModelUsageMap) (k : String × Option String) :
    mapFind (collectStep u acc) k =
      accEntry (mapFind acc k) k (if keyMatches k u then [u] else []) := by
  unfold collectStep keyMatches
  cases h : usageModelKey u with
  | none => simp [h, accEntry]
  | some k₀ =>
    by_cases hk : k₀ = k
    · subst hk
      simp [h, mapFind_mapAdd_self, mapFind_insertIfAbsent_self, accEntry, addTo,
        inputSum, outputSum, totalSum]
    · have h1 : mapFind (mapInsertIfAbsent acc k₀) k = mapFind acc k := by
        unfold mapInsertIfAbsent
        cases hm : mapFind acc k₀ with
        | some e => rfl
        | none =>
          rw [mapFind_append]
          cases hmk : mapFind acc k with
          | some e => rfl
          | none => simp [mapFind, hk]
      simp only [h, mapFind_mapAdd_other _ _ _ _ hk, h1]
      simp [accEntry, hk]

mutual
theorem collectNode_find (n : TokenNode) :
    ∀ (acc : ModelUsageMap) (k : String × Option String),
      mapFind (collectNode acc n) k
        = accEntry (mapFind acc k) k ((allUsagesNode n).filter (keyMatches k)) := by
  match n with
  | .node nm md u cs =>
    intro acc k
    rw [collectNode, allUsagesNode, collectList_find cs, collectStep_find,
      accEntry_append]
    congr 1
    by_cases h : keyMatches k u <;> simp [List.filter_cons, h]

theorem collectList_find (l : List TokenNode) :
    ∀ (acc : ModelUsageMap) (k : String × Option String),
      mapFind (collectList acc l) k
        = accEntry (mapFind acc k) k ((allUsagesList l).filter (keyMatches k)) := by
  match l with
  | [] =>
    intro acc k
    simp [collectList, allUsagesList, accEntry]
  | c :: cs =>
    intro acc k
    rw [collectList, allUsagesList, collectList_find cs, collectNode_find c,
      accEntry_append, List.filter_append]
end

/-- Characterization of the dict built by `collect_model_usage`: the entry at key
`k` is present iff some node in the subtree carries key `k`, and then holds the
three independent field sums over exactly the matching nodes. -/
theorem collect_model_usage_find (n : TokenNode) (k : String × Option String) :
    mapFind (collect_model_usage n) k =
      if (matchingUsages k n).isEmpty then none
      else some { model_name := k.1, provider := k.2,
                  input_tokens := inputSum (matchingUsages k n),
                  output_tokens := outputSum (matchingUsages k n),
                  total_tokens := totalSum (matchingUsages k n) } := by
  rw [collect_model_usage, collectNode_find n [] k]
  show accEntry none k (matchingUsages k n) = _
  by_cases h : (matchingUsages k n).isEmpty <;> simp [accEntry, h, zeroEntry]

/-- C1: for every usage-node tree, `collect_model_usage` returns a mapping keyed
by `(model_name, provider)` in which each entry's `input_tokens`, `output_tokens`
and `total_tokens` equal the sums of the corresponding fields over exactly those
nodes in the subtree whose usage carries that model name and provider — and a key
is present exactly when some such node exists, so two invocation leaves with
different model identifiers yield two distinct, independently summed entries. -/
theorem collect_model_usage_per_model_sums (n : TokenNode) (k : String × Option String) :
    mapFind (collect_model_usage n) k =
      if (matchingUsages k n).isEmpty then none
      else some { model_name := k.1, provider := k.2,
                  input_tokens := inputSum (matchingUsages k n),
                  output_tokens := outputSum (matchingUsages k n),
                  total_tokens := totalSum (matchingUsages k n) } :=
  collect_model_usage_find n k

theorem sums_total_invariant (us : List TokenUsage)
    (h : ∀ u ∈ us, u.total_tokens = u.input_tokens + u.output_tokens) :
    totalSum us = inputSum us + outputSum us := by
  induction us with
  | nil => simp
  | cons x xs ih =>
    have hx := h x (List.mem_cons_self x xs)
    have hxs := ih (fun u hu => h u (List.mem_cons_of_mem x hu))
    simp only [totalSum_cons, inputSum_cons, outputSum_cons, hx, hxs]
    omega

/-- C2: if every node's usage satisfies `total_tokens == input_tokens + output_tokens`,
then every entry of the accumulator map built by `collect_model_usage` satisfies it
as well, even though the traversal adds the three fields independently. -/
theorem collect_model_usage_total_invariant (n : TokenNode)
    (h : ∀ u ∈ allUsagesNode n, u.total_tokens = u.input_tokens + u.output_tokens)
    (k : String × Option String) (e : ModelEntry)
    (he : mapFind (collect_model_usage n) k = some e) :
    e.total_tokens = e.input_tokens + e.output_tokens := by
  rw [collect_model_usage_find] at he
  by_cases hemp : (matchingUsages k n).isEmpty
  · rw [if_pos hemp] at he
    exact absurd he (by simp)
  · rw [if_neg hemp] at he
    have hsub : ∀ u ∈ matchingUsages k n,
        u.total_tokens = u.input_tokens + u.output_tokens := by
      intro u hu
      exact h u (List.mem_of_mem_filter hu)
    have hsum := sums_total_invariant (matchingUsages k n) hsub
    cases he
    simpa [zeroEntry] using hsum

theorem collect_model_usage_total_invariant_witness : (150 : Nat) = 100 + 50 :=
  collect_model_usage_total_invariant sampleTree (by decide)
    ("claude-3", some "anthropic")
    { model_name := "claude-3", provider := some "anthropic",
      input_tokens := 100, output_tokens := 50, total_tokens := 150 }
    (by decide)

/-! ### Query-tool theorems -/

/-- C3: when the node lookup finds no matching workflow node, the tool returns a
structured result whose `error` field is `"Workflow not found"` together with the
user-facing message; the embedding is a total function, so absence is surfaced
as data and no exception is raised. -/
theorem get_workflow_token_usage_not_found (tc : ToolCounter)
    (workflow_id run_id workflow_name : Option String)
    (h : tc.get_workflow_node workflow_name workflow_id run_id = none) :
    (get_workflow_token_usage (some tc) workflow_id run_id workflow_name).error
        = some "Workflow not found" ∧
    (get_workflow_token_usage (some tc) workflow_id run_id workflow_name).message
        = some ("Could not find workflow with run_id=\x27" ++ pyOptStr run_id ++ "\x27") := by
  constructor <;> simp [get_workflow_token_usage, h, errorResult]

theorem get_workflow_token_usage_not_found_witness :
    (get_workflow_token_usage (some tcNone) none (some "does-not-exist") none).error
        = some "Workflow not found" ∧
    (get_workflow_token_usage (some tcNone) none (some "does-not-exist") none).message
        = some ("Could not find workflow with run_id=\x27" ++ "does-not-exist" ++ "\x27") :=
  get_workflow_token_usage_not_found tcNone none (some "does-not-exist") none rfl

theorem aggregateList_total (l : List TokenNode) :
    (aggregateList l).total_tokens
      = (l.map (fun c => (aggregate_usage c).total_tokens)).sum := by
  induction l with
  | nil => rfl
  | cons c cs ih => simp [aggregateList, addUsage, ih]

theorem aggregate_total_eq (n : TokenNode) :
    (aggregate_usage n).total_tokens
      = n.usage.total_tokens
        + (n.children.map (fun c => (aggregate_usage c).total_tokens)).sum := by
  cases n with
  | node nm md u cs =>
    simp [aggregate_usage, addUsage, TokenNode.usage, TokenNode.children,
      aggregateList_total]

/-- C4: `aggregate_usage` satisfies the recursive total equation — a node's
aggregate total is its own usage total plus the sum of its children's aggregate
totals, down to the leaves — and the tool exposes the three aggregate fields
unchanged as the `usage` field of its result. (`aggregate_usage` itself is
modelled from the spec, being defined outside the visible source.) -/
theorem aggregate_usage_recursive_sum :
    (∀ n : TokenNode,
      (aggregate_usage n).total_tokens
        = n.usage.total_tokens
          + (n.children.map (fun c => (aggregate_usage c).total_tokens)).sum) ∧
    (∀ (tc : ToolCounter) (workflow_id run_id workflow_name : Option String)
        (n : TokenNode),
      tc.get_workflow_node workflow_name workflow_id run_id = some n →
      (get_workflow_token_usage (some tc) workflow_id run_id workflow_name).usage
        = some { input_tokens := (aggregate_usage n).input_tokens,
                 output_tokens := (aggregate_usage n).output_tokens,
                 total_tokens := (aggregate_usage n).total_tokens }) := by
  constructor
  · exact aggregate_total_eq
  · intro tc workflow_id run_id workflow_name n h
    simp [get_workflow_token_usage, h]

theorem aggregate_usage_recursive_sum_witness :
    (aggregate_usage sampleTree).total_tokens
        = sampleTree.usage.total_tokens
          + (sampleTree.children.map (fun c => (aggregate_usage c).total_tokens)).sum ∧
    (get_workflow_token_usage (some tcSample) none (some "run-123") none).usage
        = some { input_tokens := 120, output_tokens := 60, total_tokens := 180 } :=
  ⟨aggregate_usage_recursive_sum.1 sampleTree,
   aggregate_usage_recursive_sum.2 tcSample none (some "run-123") none sampleTree rfl⟩

theorem ratFloorZ_nonneg (q : ℚ) (h : 0 ≤ q) : 0 ≤ ratFloorZ q := by
  unfold ratFloorZ
  exact Int.fdiv_nonneg (Rat.num_nonneg.mpr h) (Int.ofNat_nonneg q.den)

theorem roundHalfEven_nonneg (q : ℚ) (h : 0 ≤ q) : 0 ≤ roundHalfEven q := by
  have hf := ratFloorZ_nonneg q h
  unfold roundHalfEven
  split
  · exact hf
  · split
    · omega
    · split
      · exact hf
      · omega

theorem format_cost_shape (c : ℚ) (hc : 0 ≤ c) :
    ∃ w : ℤ, ∃ fr : Nat,
      TokenProgressDisplay._format_cost c = "$" ++ toString w ++ "." ++ digits4 fr
        ∧ fr < 10000 ∧ w * 10000 + (fr : ℤ) = roundHalfEven (c * 10000) := by
  have hn : 0 ≤ roundHalfEven (c * 10000) :=
    roundHalfEven_nonneg _ (by positivity)
  have hmn := Int.emod_nonneg (roundHalfEven (c * 10000))
    (by norm_num : (10000 : ℤ) ≠ 0)
  have hml := Int.emod_lt_of_pos (roundHalfEven (c * 10000))
    (by norm_num : (0 : ℤ) < 10000)
  have hde := Int.ediv_add_emod (roundHalfEven (c * 10000)) 10000
  refine ⟨roundHalfEven (c * 10000) / 10000,
    (roundHalfEven (c * 10000) % 10000).toNat, ?_, by omega, by omega⟩
  unfold TokenProgressDisplay._format_cost
  rw [if_neg (by omega)]

/-- C8: cost is rounded to four decimal places only at the presentation
boundary. The tool's stored `cost` is exactly `round4` applied to the
unmodified engine cost, each `model_breakdown` entry's cost is exactly `round4`
applied to the unmodified `calculate_cost` value at the moment it is placed into
the result, and the display's `_format_cost` renders any nonnegative cost as a
dollar string with exactly four decimal digits of the half-even rounded value. -/
theorem cost_rounded_only_at_presentation (tc : ToolCounter)
    (workflow_id run_id workflow_name : Option String) (n : TokenNode)
    (h : tc.get_workflow_node workflow_name workflow_id run_id = some n) :
    (get_workflow_token_usage (some tc) workflow_id run_id workflow_name).cost
        = some (round4 (tc.calculate_node_cost n)) ∧
    (get_workflow_token_usage (some tc) workflow_id run_id workflow_name).model_breakdown
        = (collect_model_usage n).map (fun p =>
            (displayKey p.1.1 p.1.2,
             { model_name := p.2.model_name, provider := p.2.provider,
               input_tokens := p.2.input_tokens, output_tokens := p.2.output_tokens,
               total_tokens := p.2.total_tokens,
               cost := round4 (tc.calculate_cost p.1.1 p.2.input_tokens
                 p.2.output_tokens p.1.2) })) ∧
    (∀ c : ℚ, 0 ≤ c → ∃ w : ℤ, ∃ fr : Nat,
      TokenProgressDisplay._format_cost c = "$" ++ toString w ++ "." ++ digits4 fr
        ∧ fr < 10000 ∧ w * 10000 + (fr : ℤ) = roundHalfEven (c * 10000)) := by
  refine ⟨?_, ?_, fun c hc => format_cost_shape c hc⟩
  · simp [get_workflow_token_usage, h]
  · simp [get_workflow_token_usage, h]

theorem cost_rounded_only_at_presentation_witness :
    (get_workflow_token_usage (some tcSample) none (some "run-123") none).cost
        = some (round4 (tcSample.calculate_node_cost sampleTree)) ∧
    (∃ w : ℤ, ∃ fr : Nat,
      TokenProgressDisplay._format_cost (21/20000 : ℚ)
          = "$" ++ toString w ++ "." ++ digits4 fr
        ∧ fr < 10000
        ∧ w * 10000 + (fr : ℤ) = roundHalfEven ((21/20000 : ℚ) * 10000)) :=
  ⟨(cost_rounded_only_at_presentation tcSample none (some "run-123") none
      sampleTree rfl).1,
   (cost_rounded_only_at_presentation tcSample none (some "run-123") none
      sampleTree rfl).2.2 (21/20000) (by norm_num)⟩

/-! ### Display lifecycle theorems -/

/-- C5: using the display as a scoped resource calls `start` on entry — which,
on a counter with a root, registers exactly one watch (on the root, threshold 1,
throttle 100ms) and records its subscription id — and calls `stop` on every exit
path (the body may return normally or raise): after the scope, the recorded id
has been passed to `unwatch` and the display's id list is empty. -/
theorem scoped_display_lifecycle (c : CounterState) (h : c.hasRoot = true) :
    (TokenProgressDisplay.start c initDisplay).2.1._watch_ids = [c.nextId] ∧
    (TokenProgressDisplay.start c initDisplay).2.2
        = [EngineEvent.watchEv c.nextId true 1 100] ∧
    ∀ (body : CounterState → CounterState × Except String Unit),
      (TokenProgressDisplay.withDisplay c initDisplay body).2.1._watch_ids = [] ∧
      (TokenProgressDisplay.withDisplay c initDisplay body).2.2.2
          = [EngineEvent.watchEv c.nextId true 1 100,
             EngineEvent.unwatchEv c.nextId] := by
  refine ⟨?_, ?_, fun body => ⟨?_, ?_⟩⟩ <;>
    simp [TokenProgressDisplay.start, TokenProgressDisplay.withDisplay,
      TokenProgressDisplay.stop, initDisplay, ProgressState.add_task,
      CounterState.watch, h]

theorem scoped_display_lifecycle_witness :
    (TokenProgressDisplay.start counterWithRoot initDisplay).2.1._watch_ids = [7] ∧
    (TokenProgressDisplay.withDisplay counterWithRoot initDisplay bodyErr).2.1._watch_ids
        = [] ∧
    (TokenProgressDisplay.withDisplay counterWithRoot initDisplay bodyErr).2.2.2
        = [EngineEvent.watchEv 7 true 1 100, EngineEvent.unwatchEv 7] :=
  ⟨(scoped_display_lifecycle counterWithRoot rfl).1,
   ((scoped_display_lifecycle counterWithRoot rfl).2.2 bodyErr).1,
   ((scoped_display_lifecycle counterWithRoot rfl).2.2 bodyErr).2⟩

/-- C6: `stop` is idempotent — a second `stop` leaves the counter and display
exactly as the first left them and passes no subscription id to `unwatch` (the
id list was cleared) — and it composes with the engine contract that `unwatch`
of an unknown id is a no-op rather than an error. -/
theorem stop_idempotent (c : CounterState) (d : DisplayState) :
    TokenProgressDisplay.stop (TokenProgressDisplay.stop c d).1
        (TokenProgressDisplay.stop c d).2.1
      = ((TokenProgressDisplay.stop c d).1, (TokenProgressDisplay.stop c d).2.1, []) ∧
    ∀ (c' : CounterState) (i : Nat), i ∉ c'.active → c'.unwatch i = c' := by
  constructor
  · rfl
  · intro c' i hi
    rw [CounterState.unwatch, List.erase_of_not_mem hi]

theorem stop_idempotent_witness :
    TokenProgressDisplay.stop (TokenProgressDisplay.stop counterWithRoot sampleDisplay).1
        (TokenProgressDisplay.stop counterWithRoot sampleDisplay).2.1
      = ((TokenProgressDisplay.stop counterWithRoot sampleDisplay).1,
         (TokenProgressDisplay.stop counterWithRoot sampleDisplay).2.1, []) ∧
    counterWithRoot.unwatch 42 = counterWithRoot :=
  ⟨(stop_idempotent counterWithRoot sampleDisplay).1,
   (stop_idempotent counterWithRoot sampleDisplay).2 counterWithRoot 42 (by decide)⟩

theorem map_setVisible_true_of_all_visible (l : List TaskRow)
    (h : ∀ t ∈ l, t.visible = true) : l.map (setVisible true) = l := by
  induction l with
  | nil => rfl
  | cons t ts ih =>
    have ht := h t (List.mem_cons_self t ts)
    have hts := ih fun x hx => h x (List.mem_cons_of_mem t hx)
    obtain ⟨ni, tk, ct, v⟩ := t
    simp only [TaskRow.visible] at ht
    subst ht
    simp [setVisible, hts]

theorem setVisible_setVisible (b₁ b₂ : Bool) (t : TaskRow) :
    setVisible b₁ (setVisible b₂ t) = setVisible b₁ t := rfl

/-- C7: `pause` and `resume` never call `watch` or `unwatch` (their engine-call
trace is empty, the counter is untouched) and leave the display's subscription
id list unchanged; the `paused()` scope calls `resume` on every exit path
(normal return or exception of the body), and from a running, fully visible,
unpaused display it restores the pre-pause state exactly. -/
theorem pause_resume_frame (c : CounterState) (d : DisplayState) :
    (TokenProgressDisplay.pause c d).2.2 = [] ∧
    (TokenProgressDisplay.resume c d).2.2 = [] ∧
    (TokenProgressDisplay.pause c d).1 = c ∧
    (TokenProgressDisplay.resume c d).1 = c ∧
    (TokenProgressDisplay.pause c d).2.1._watch_ids = d._watch_ids ∧
    (TokenProgressDisplay.resume c d).2.1._watch_ids = d._watch_ids ∧
    (∀ (body : CounterState → CounterState × Except String Unit),
      (TokenProgressDisplay.pausedScope c d body).2.2.2 = [] ∧
      (TokenProgressDisplay.pausedScope c d body).2.1._watch_ids = d._watch_ids) ∧
    (d._paused = false → d._progress.started = true →
      (∀ t ∈ d._progress.tasks, t.visible = true) →
      ∀ (body : CounterState → CounterState × Except String Unit),
        (TokenProgressDisplay.pausedScope c d body).2.1 = d) := by
  have hpause : ∀ (c₀ : CounterState), (TokenProgressDisplay.pause c₀ d).2.2 = []
      ∧ (TokenProgressDisplay.pause c₀ d).1 = c₀
      ∧ (TokenProgressDisplay.pause c₀ d).2.1._watch_ids = d._watch_ids := by
    intro c₀
    by_cases hp : d._paused <;> simp [TokenProgressDisplay.pause, hp]
  have hresume : ∀ (c₀ : CounterState) (d₀ : DisplayState),
      (TokenProgressDisplay.resume c₀ d₀).2.2 = []
      ∧ (TokenProgressDisplay.resume c₀ d₀).1 = c₀
      ∧ (TokenProgressDisplay.resume c₀ d₀).2.1._watch_ids = d₀._watch_ids := by
    intro c₀ d₀
    by_cases hp : d₀._paused <;> simp [TokenProgressDisplay.resume, hp]
  refine ⟨(hpause c).1, (hresume c d).1, (hpause c).2.1, (hresume c d).2.1,
    (hpause c).2.2, (hresume c d).2.2, fun body => ⟨?_, ?_⟩, ?_⟩
  · show (TokenProgressDisplay.pause c d).2.2
        ++ (TokenProgressDisplay.resume _ _).2.2 = []
    rw [(hpause c).1, (hresume _ _).1]
    rfl
  · show (TokenProgressDisplay.resume _ (TokenProgressDisplay.pause c d).2.1).2.1._watch_ids
        = d._watch_ids
    rw [(hresume _ _).2.2, (hpause c).2.2]
  · intro hp hs hv body
    obtain ⟨wi, pa, pr, tt⟩ := d
    obtain ⟨st, ts⟩ := pr
    simp only [DisplayState._paused] at hp
    simp only [DisplayState._progress, ProgressState.started] at hs
    simp only [DisplayState._progress, ProgressState.tasks] at hv
    subst hp hs
    show (TokenProgressDisplay.resume _ (TokenProgressDisplay.pause c _).2.1).2.1 = _
    simp only [TokenProgressDisplay.pause, TokenProgressDisplay.resume]
    simp only [DisplayState._paused, Bool.not_false, if_true, ite_true,
      DisplayState._progress, ProgressState.tasks, List.map_map]
    have hcomp : (setVisible true ∘ setVisible false) = setVisible true :=
      funext fun t => setVisible_setVisible true false t
    rw [hcomp, map_setVisible_true_of_all_visible ts hv]

theorem pause_resume_frame_witness :
    (TokenProgressDisplay.pause counterWithRoot sampleDisplay).2.2 = [] ∧
    (TokenProgressDisplay.pausedScope counterWithRoot sampleDisplay
        bodyErr).2.1._watch_ids = [5] ∧
    (TokenProgressDisplay.pausedScope counterWithRoot sampleDisplay bodyErr).2.1
        = sampleDisplay :=
  ⟨(pause_resume_frame counterWithRoot sampleDisplay).1,
   ((pause_resume_frame counterWithRoot sampleDisplay).2.2.2.2.2.2.1 bodyErr).2,
   (pause_resume_frame counterWithRoot sampleDisplay).2.2.2.2.2.2.2 rfl rfl
     (by decide) bodyErr⟩

/-- C9: `_on_token_update` is a two-run noninterference property over its
payload: whenever `get_summary()` yields the same summary, the widget state and
the progress update issued are identical regardless of the `node` and `usage`
arguments, so coalesced or stale payloads cannot affect what is displayed. -/
theorem on_token_update_noninterference (c₁ c₂ : CounterState)
    (n₁ n₂ : TokenNode) (u₁ u₂ : TokenUsage) (d : DisplayState)
    (h : c₁.get_summary = c₂.get_summary) :
    TokenProgressDisplay._on_token_update c₁ n₁ u₁ d
      = TokenProgressDisplay._on_token_update c₂ n₂ u₂ d := by
  simp [TokenProgressDisplay._on_token_update, h]

theorem on_token_update_noninterference_witness :
    TokenProgressDisplay._on_token_update counterWithRoot sampleTree usageClaude
        sampleDisplay
      = TokenProgressDisplay._on_token_update counterOther
          (TokenNode.node "other" [] usageGpt []) usageGpt sampleDisplay :=
  on_token_update_noninterference counterWithRoot counterOther sampleTree
    (TokenNode.node "other" [] usageGpt []) usageClaude usageGpt sampleDisplay rfl

/-- C10: on a counter whose `_root` is absent (falsy), `start` still succeeds —
the widget starts and shows the initial zero totals — but registers no watch and
records no subscription id, and a subsequent `stop` is safe: it passes no id to
`unwatch` and leaves the counter untouched. The embedding is total, so `start`
raises nothing on a rootless counter. -/
theorem start_without_root (c : CounterState) (h : c.hasRoot = false) :
    TokenProgressDisplay.start c initDisplay = (c, startedNoWatchDisplay, []) ∧
    (TokenProgressDisplay.stop c startedNoWatchDisplay).2.2 = [] ∧
    (TokenProgressDisplay.stop c startedNoWatchDisplay).1 = c ∧
    (TokenProgressDisplay.stop c startedNoWatchDisplay).2.1._watch_ids = [] := by
  refine ⟨?_, rfl, rfl, rfl⟩
  simp [TokenProgressDisplay.start, initDisplay, ProgressState.add_task, h,
    startedNoWatchDisplay]

theorem start_without_root_witness :
    TokenProgressDisplay.start counterNoRoot initDisplay
        = (counterNoRoot, startedNoWatchDisplay, []) ∧
    (TokenProgressDisplay.stop counterNoRoot startedNoWatchDisplay).2.2 = [] ∧
    (TokenProgressDisplay.stop counterNoRoot startedNoWatchDisplay).1 = counterNoRoot ∧
    (TokenProgressDisplay.stop counterNoRoot startedNoWatchDisplay).2.1._watch_ids
        = [] :=
  start_without_root counterNoRoot rfl

end McpAgent
